import Mathlib

/-!
Verification of the crypto-stock-platform data pipeline.

Shallow embedding of the Python sources:
- `src/processors/bar_builder.py` (OHLC bar building, roll-up, completion)
- `src/processors/data_quality.py` (quality score, timestamp freshness)
- `src/api/rate_limiter.py` (token-bucket rate limiter)
- `src/collectors/circuit_breaker.py` (circuit breaker state machine)
- `src/api/alert_manager.py` (alert triggering and cooldown)

Prices, quantities and times are modelled as rationals; timestamps and
bucket times as in the source (bucket times are integers after flooring).
-/

namespace Platform

/-! ## Bar builder: data model (`bar_builder.py`) -/

/-- An OHLC bar as built by `BarBuilder` (`bar_builder.py`, `_init_bar`).
Wall-clock bookkeeping fields (`first_trade_time`, `last_update`,
`time`, `completed`) are omitted; the numeric content is kept. -/
structure Bar where
  bucketTime : ℤ
  open_ : ℚ
  high : ℚ
  low : ℚ
  close : ℚ
  volume : ℚ
  tradeCount : ℕ
deriving Repr, DecidableEq

/-- A trade tick as consumed by `_process_trade_for_timeframe`:
price, quantity, raw timestamp (seconds or milliseconds). -/
structure Tick where
  price : ℚ
  quantity : ℚ
  timestamp : ℚ
deriving Repr, DecidableEq

/-- Timestamp normalisation in `_process_trade_for_timeframe`
(`bar_builder.py` lines 177-179): divide by 1000 exactly when the
value exceeds 1e12, else leave it as seconds. -/
def normalizeTimestampBar (ts : ℚ) : ℚ :=
  if ts > 10 ^ 12 then ts / 1000 else ts

/-- Timestamp normalisation in `_check_data_freshness`
(`data_quality.py` lines 229-231), same guard and division. -/
def normalizeTimestampFreshness (ts : ℚ) : ℚ :=
  if ts > 10 ^ 12 then ts / 1000 else ts

/-- `_get_bucket_time`: round a timestamp (seconds) down to the start of
its timeframe bucket, `int(timestamp // interval * interval)`; Python
`//` is floor division. It is written with `Int.fdiv` (floor division)
on the numerator and scaled denominator so the kernel can evaluate it;
`getBucketTime_eq_floor` shows it is exactly `⌊ts / interval⌋ * interval`
for every positive interval. -/
def getBucketTime (ts : ℚ) (intervalSeconds : ℤ) : ℤ :=
  ts.num.fdiv (ts.den * intervalSeconds) * intervalSeconds

/-- `_init_bar`: a fresh bar from the first trade of a bucket. -/
def initBar (bucketTime : ℤ) (price quantity : ℚ) : Bar :=
  { bucketTime := bucketTime
    open_ := price
    high := price
    low := price
    close := price
    volume := quantity
    tradeCount := 1 }

/-- The update branch of `_process_trade_for_timeframe` (lines 196-203):
fold one more trade into the open bar of the same bucket. -/
def updateBar (b : Bar) (price quantity : ℚ) : Bar :=
  { b with
    high := max b.high price
    low := min b.low price
    close := price
    volume := b.volume + quantity
    tradeCount := b.tradeCount + 1 }

/-- State of the bar builder for one `(symbol, timeframe)` pair: the open
bar (if any) and the bars completed so far, oldest first. -/
structure BuilderState where
  current : Option Bar
  completions : List Bar
deriving Repr, DecidableEq

/-- One step of `_process_trade_for_timeframe` for a fixed
`(symbol, timeframe)`: normalise the timestamp, compute the bucket; if
there is no open bar or its bucket differs, complete the open bar (when
present) and initialize a new one at the tick's bucket; otherwise update
the open bar in place. -/
def procTick (p : ℤ) (st : BuilderState) (t : Tick) : BuilderState :=
  let ts := normalizeTimestampBar t.timestamp
  let bucket := getBucketTime ts p
  match st.current with
  | none => ⟨some (initBar bucket t.price t.quantity), st.completions⟩
  | some b =>
      if b.bucketTime ≠ bucket then
        ⟨some (initBar bucket t.price t.quantity), st.completions ++ [b]⟩
      else
        ⟨some (updateBar b t.price t.quantity), st.completions⟩

/-- Process a whole tick stream for one `(symbol, timeframe)` pair,
starting with no open bar and no completions. -/
def processTicks (p : ℤ) (ticks : List Tick) : BuilderState :=
  ticks.foldl (procTick p) ⟨none, []⟩

/-- The bucket a tick falls into after timestamp normalisation. -/
def tickBucket (p : ℤ) (t : Tick) : ℤ :=
  getBucketTime (normalizeTimestampBar t.timestamp) p

/-- Seeding a new aggregated bar from a completed base bar
(`bar_builder.py` lines 410-425). -/
def aggSeed (bucketTime : ℤ) (base : Bar) : Bar :=
  { bucketTime := bucketTime
    open_ := base.open_
    high := base.high
    low := base.low
    close := base.close
    volume := base.volume
    tradeCount := base.tradeCount }

/-- Extending an open aggregated bar with one more completed base bar
(`bar_builder.py` lines 428-436): open stays, high/low extremes, close
follows the last base bar, volume and trade counts accumulate. -/
def aggUpdate (agg : Bar) (base : Bar) : Bar :=
  { agg with
    high := max agg.high base.high
    low := min agg.low base.low
    close := base.close
    volume := agg.volume + base.volume
    tradeCount := agg.tradeCount + base.tradeCount }

/-- One step of `_aggregate_higher_timeframes` for a fixed higher
timeframe of `p` seconds, fed one completed base bar: compute the base
bar's bucket in the higher timeframe; seed a new aggregated bar if none
is open or the bucket changed (completing the previous one), else extend
the open aggregated bar. -/
def aggStep (p : ℤ) (st : BuilderState) (base : Bar) : BuilderState :=
  let bucket := getBucketTime (base.bucketTime : ℚ) p
  match st.current with
  | none => ⟨some (aggSeed bucket base), st.completions⟩
  | some agg =>
      if agg.bucketTime ≠ bucket then
        ⟨some (aggSeed bucket base), st.completions ++ [agg]⟩
      else
        ⟨some (aggUpdate agg base), st.completions⟩

/-! ## OHLC validation and bar completion (`_validate_ohlc`, `_complete_bar`) -/

/-- `_validate_ohlc` (`bar_builder.py` lines 348-383): high must reach
`max(open, close)`, low must not exceed `min(open, close)`, all four
prices positive, volume non-negative. -/
def validateOhlc (b : Bar) : Bool :=
  if b.high < max b.open_ b.close then false
  else if b.low > min b.open_ b.close then false
  else if b.open_ ≤ 0 ∨ b.high ≤ 0 ∨ b.low ≤ 0 ∨ b.close ≤ 0 then false
  else if b.volume < 0 then false
  else true

/-- The observable side effects of `_complete_bar` (`bar_builder.py`
lines 268-346) on one candle: whether the invalid-bar counter was
incremented, whether a quality failure was recorded with the quality
checker, and whether the bar was persisted, published and appended to
the completed-bars cache. In the source the quality-checker branch under
`if not is_valid` is a bare `pass`, and storing, publishing and caching
run unconditionally after validation. -/
structure CompletionEffects where
  invalidCounted : Bool
  qualityFailureRecorded : Bool
  persisted : Bool
  published : Bool
  appendedToCache : Bool
deriving Repr, DecidableEq

/-- Effects of `_complete_bar` on a bar (with database and Redis managers
attached): validation only drives logging and the invalid-bar counter;
the quality-checker branch is `pass`; persisting, publishing and caching
happen for valid and invalid bars alike. -/
def completeBarEffects (b : Bar) : CompletionEffects :=
  let isValid := validateOhlc b
  { invalidCounted := !isValid
    qualityFailureRecorded := false
    persisted := true
    published := true
    appendedToCache := true }

/-- Pub/sub channel the bar builder publishes completed bars to
(`bar_builder.py` line 504). -/
def publishCompletedBarChannel : String := "completed_bars"

/-- Pub/sub channel the processors' main loop subscribes to for completed
bars (`processors/main.py` line 109). -/
def processorsCompletedBarsChannel : String := "bars:completed"

/-! ## Quality score (`data_quality.py`) -/

/-- `_update_quality_score` (`data_quality.py` lines 350-373): an EMA
with smoothing factor `alpha = 0.1`; a passed check pulls the score
toward 1.0, a failed one toward 0.0. -/
def updateQualityScore (currentScore : ℚ) (passed : Bool) : ℚ :=
  let alpha : ℚ := 1 / 10
  if passed then currentScore + alpha * (1 - currentScore)
  else currentScore + alpha * (0 - currentScore)

/-- The score of one symbol after replaying a pass/fail sequence from the
initial score 1.0 (`quality_scores` is a `defaultdict(lambda: 1.0)`). -/
def qualityScore (seq : List Bool) : ℚ :=
  seq.foldl updateQualityScore 1

/-- One `(symbol, passed)` event applied to the per-symbol score table:
only the event's own symbol is updated. -/
def updateScores (scores : String → ℚ) (e : String × Bool) : String → ℚ :=
  fun sym => if sym = e.1 then updateQualityScore (scores e.1) e.2 else scores sym

/-- The per-symbol score table after a mixed event stream, all symbols
starting at 1.0. -/
def qualityScores (events : List (String × Bool)) : String → ℚ :=
  events.foldl updateScores (fun _ => 1)

/-! ## Token-bucket rate limiter (`rate_limiter.py`) -/

/-- Stored bucket state for one client: the `{tokens, last_refill}` hash
kept in the cache. -/
structure BucketState where
  tokens : ℚ
  lastRefill : ℚ
deriving Repr, DecidableEq

/-- Result of one `is_allowed` call: the decision, the `retry_after`
value returned on denial, and the bucket state left in the cache after
the call. -/
structure RateLimitResult where
  allowed : Bool
  retryAfter : Option ℤ
  bucket : Option BucketState
deriving Repr, DecidableEq

/-- Python `int()` on a rational: truncation toward zero. -/
def pyInt (q : ℚ) : ℤ :=
  if 0 ≤ q then ⌊q⌋ else ⌈q⌉

/-- `is_allowed` (`rate_limiter.py` lines 69-185) with the cache state
passed explicitly. A missing bucket is initialised with
`tokens = rate - cost` at the current time and the request allowed.
Otherwise tokens are refilled at `refill_rate = rate / period` up to the
`rate` capacity; if the refilled tokens cover the cost they are consumed
and written back with `last_refill = now`; else the request is denied
with `retry_after = int((cost - tokens) / refill_rate) + 1` and nothing
is written back. -/
def isAllowed (rate periodSeconds : ℤ) (st : Option BucketState) (now : ℚ)
    (cost : ℤ) : RateLimitResult :=
  let refillRate : ℚ := (rate : ℚ) / (periodSeconds : ℚ)
  match st with
  | none =>
      { allowed := true
        retryAfter := none
        bucket := some ⟨(rate : ℚ) - (cost : ℚ), now⟩ }
  | some b =>
      let timeElapsed := now - b.lastRefill
      let tokensToAdd := timeElapsed * refillRate
      let tokens := min (rate : ℚ) (b.tokens + tokensToAdd)
      if tokens ≥ (cost : ℚ) then
        { allowed := true
          retryAfter := none
          bucket := some ⟨tokens - (cost : ℚ), now⟩ }
      else
        let tokensNeeded := (cost : ℚ) - tokens
        { allowed := false
          retryAfter := some (pyInt (tokensNeeded / refillRate) + 1)
          bucket := st }

/-! ## Circuit breaker (`circuit_breaker.py`) -/

/-- Circuit breaker states (`CircuitState`). -/
inductive CircuitState where
  | closed
  | opened
  | halfOpen
deriving Repr, DecidableEq

/-- `CircuitBreakerConfig` with its source defaults available at the
call sites that build one. -/
structure CircuitBreakerConfig where
  failureThreshold : ℕ
  timeout : ℚ
  successThreshold : ℕ
  exponentialBackoff : Bool
  maxTimeout : ℚ
deriving Repr, DecidableEq

/-- Mutable state of a `CircuitBreaker`: state, counters, when the
circuit opened, and the current (possibly backed-off) timeout. -/
structure BreakerState where
  state : CircuitState
  failureCount : ℕ
  successCount : ℕ
  openedAt : Option ℚ
  currentTimeout : ℚ
deriving Repr, DecidableEq

/-- A freshly constructed breaker: CLOSED, zero counters,
`current_timeout = config.timeout`. -/
def initBreaker (cfg : CircuitBreakerConfig) : BreakerState :=
  { state := CircuitState.closed
    failureCount := 0
    successCount := 0
    openedAt := none
    currentTimeout := cfg.timeout }

/-- `_transition_to_open` (lines 183-204): record the opening time,
clear successes, and double the current timeout (capped at
`max_timeout`) when exponential backoff is on. -/
def transitionToOpen (cfg : CircuitBreakerConfig) (now : ℚ)
    (st : BreakerState) : BreakerState :=
  { st with
    state := CircuitState.opened
    openedAt := some now
    successCount := 0
    currentTimeout :=
      if cfg.exponentialBackoff then min (st.currentTimeout * 2) cfg.maxTimeout
      else st.currentTimeout }

/-- `_transition_to_half_open` (lines 206-219): clear both counters. -/
def transitionToHalfOpen (st : BreakerState) : BreakerState :=
  { st with
    state := CircuitState.halfOpen
    successCount := 0
    failureCount := 0 }

/-- `_transition_to_closed` (lines 221-238): clear counters, forget the
opening time and reset the timeout to the configured value. -/
def transitionToClosed (cfg : CircuitBreakerConfig) (st : BreakerState) : BreakerState :=
  { st with
    state := CircuitState.closed
    failureCount := 0
    successCount := 0
    openedAt := none
    currentTimeout := cfg.timeout }

/-- `_should_attempt_reset` (lines 240-246): true when the circuit has
been open for at least the current timeout. -/
def shouldAttemptReset (now : ℚ) (st : BreakerState) : Bool :=
  match st.openedAt with
  | none => false
  | some openedAt => now - openedAt ≥ st.currentTimeout

/-- `_on_success` (lines 143-156): reset the failure count; in HALF_OPEN
count the success and close after `success_threshold` of them; in CLOSED
reset the timeout. -/
def onSuccess (cfg : CircuitBreakerConfig) (st : BreakerState) : BreakerState :=
  let st := { st with failureCount := 0 }
  match st.state with
  | CircuitState.halfOpen =>
      let st := { st with successCount := st.successCount + 1 }
      if st.successCount ≥ cfg.successThreshold then transitionToClosed cfg st else st
  | CircuitState.closed => { st with currentTimeout := cfg.timeout }
  | CircuitState.opened => st

/-- `_on_failure` (lines 158-181): count the failure; from CLOSED open
once `failure_threshold` is reached; from HALF_OPEN reopen at once. -/
def onFailure (cfg : CircuitBreakerConfig) (now : ℚ) (st : BreakerState) : BreakerState :=
  let st := { st with failureCount := st.failureCount + 1 }
  match st.state with
  | CircuitState.closed =>
      if st.failureCount ≥ cfg.failureThreshold then transitionToOpen cfg now st else st
  | CircuitState.halfOpen => transitionToOpen cfg now st
  | CircuitState.opened => st

/-- The guard at the top of `call` (lines 124-131): when OPEN, either
transition to HALF_OPEN (if the timeout elapsed) and let the call run,
or raise `CircuitBreakerOpenError`. `none` models the raise. -/
def breakerPreCheck (now : ℚ) (st : BreakerState) : Option BreakerState :=
  if st.state = CircuitState.opened then
    if shouldAttemptReset now st then some (transitionToHalfOpen st) else none
  else
    some st

/-- Outcome of the function a `call` runs. -/
inductive CallOutcome where
  | succeeded
  | failed
deriving Repr, DecidableEq

/-- Result of one `call`: either the protected function executed (and the
breaker absorbed its success or failure), or the open circuit raised. -/
inductive CallResult where
  | executed (st : BreakerState)
  | raised (st : BreakerState)
deriving Repr, DecidableEq

/-- `call` (lines 108-141): pre-check the open circuit, run the function,
and route its outcome through `_on_success` or `_on_failure`. -/
def breakerCall (cfg : CircuitBreakerConfig) (now : ℚ) (outcome : CallOutcome)
    (st : BreakerState) : CallResult :=
  match breakerPreCheck now st with
  | none => CallResult.raised st
  | some st' =>
      match outcome with
      | CallOutcome.succeeded => CallResult.executed (onSuccess cfg st')
      | CallOutcome.failed => CallResult.executed (onFailure cfg now st')

/-- The breaker state a `CallResult` leaves behind. -/
def CallResult.state : CallResult → BreakerState
  | CallResult.executed st => st
  | CallResult.raised st => st

/-- The configuration of claim C3: `failure_threshold=3`, `timeout=0.5 s`,
`success_threshold=2`, with the source defaults
`exponential_backoff=True` and `max_timeout=300.0`. -/
def c3Config : CircuitBreakerConfig :=
  { failureThreshold := 3
    timeout := 1 / 2
    successThreshold := 2
    exponentialBackoff := true
    maxTimeout := 300 }

/-! ## Alert manager (`alert_manager.py`) -/

/-- Alert condition types; the price fragment of `AlertCondition` that
claim C8 exercises (the indicator-driven conditions need the indicator
dictionary and are not modelled). -/
inductive AlertCondition where
  | priceAbove
  | priceBelow
deriving Repr, DecidableEq

/-- An `Alert`'s triggering-relevant fields: activity flag, condition,
threshold, cooldown, one-time flag, last trigger time and count. -/
structure Alert where
  isActive : Bool
  condition : AlertCondition
  threshold : ℚ
  cooldownSeconds : ℚ
  oneTime : Bool
  lastTriggeredAt : Option ℚ
  triggerCount : ℕ
deriving Repr, DecidableEq

/-- `_should_trigger` (`alert_manager.py` lines 138-214) for price
conditions: inactive alerts never fire; an alert in cooldown
(`now < last_triggered_at + cooldown_seconds`) never fires; a one-time
alert that has fired never fires again; otherwise PRICE_ABOVE fires when
`price > threshold` and PRICE_BELOW when `price < threshold`. -/
def shouldTrigger (a : Alert) (now price : ℚ) : Bool :=
  if !a.isActive then false
  else if (match a.lastTriggeredAt with
    | some lastAt => decide (now < lastAt + a.cooldownSeconds)
    | none => false) then false
  else if a.oneTime ∧ a.triggerCount > 0 then false
  else match a.condition with
    | AlertCondition.priceAbove => price > a.threshold
    | AlertCondition.priceBelow => price < a.threshold

/-- `_update_alert_state` (lines 437-451): stamp the trigger time, count
it, and deactivate one-time alerts. -/
def updateAlertState (a : Alert) (now : ℚ) : Alert :=
  { a with
    lastTriggeredAt := some now
    triggerCount := a.triggerCount + 1
    isActive := if a.oneTime then false else a.isActive }

/-- One evaluation of `check_alerts` for a single alert: fire-and-update
when `_should_trigger` holds, else leave the alert alone. Returns the
new alert state and whether it fired. -/
def evalAlert (a : Alert) (now price : ℚ) : Alert × Bool :=
  if shouldTrigger a now price then (updateAlertState a now, true) else (a, false)

/-- Evaluate an alert over a sequence of `(time, price)` observations,
collecting the fire decisions in order. -/
def evalAlertSeq (a : Alert) : List (ℚ × ℚ) → Alert × List Bool
  | [] => (a, [])
  | (now, price) :: rest =>
      let r := evalAlert a now price
      let rec' := evalAlertSeq r.1 rest
      (rec'.1, r.2 :: rec'.2)

/-- The PRICE_ABOVE alert of claim C8: threshold 100, cooldown 60 s,
fresh and repeating. -/
def c8Alert : Alert :=
  { isActive := true
    condition := AlertCondition.priceAbove
    threshold := 100
    cooldownSeconds := 60
    oneTime := false
    lastTriggeredAt := none
    triggerCount := 0 }

end Platform

open Platform

theorem getBucketTime_eq_floor (ts : ℚ) (p : ℤ) (hp : 0 < p) :
    getBucketTime ts p = ⌊ts / (p : ℚ)⌋ * p := by
  have hm : (0:ℤ) < (ts.den : ℤ) * p := mul_pos (by exact_mod_cast ts.den_pos) hp
  have h1 : ts / (p:ℚ) = (ts.num : ℚ) / ((((ts.den : ℤ) * p : ℤ) : ℤ) : ℚ) := by
    conv_lhs => rw [← Rat.num_div_den ts]
    push_cast
    rw [div_div]
  rw [getBucketTime, h1]
  rcases Int.eq_ofNat_of_zero_le (le_of_lt hm) with ⟨d, hd⟩
  rw [hd]
  rw [show (((d : ℤ) : ℤ) : ℚ) = ((d : ℕ) : ℚ) by push_cast; ring]
  rw [Rat.floor_intCast_div_natCast]
  rw [Int.fdiv_eq_ediv _ (by positivity)]

theorem updateBar_bucketTime (b : Bar) (price quantity : ℚ) :
    (updateBar b price quantity).bucketTime = b.bucketTime := rfl

/-- Invariant of the tick fold: starting from an open bar whose bucket is
below every remaining tick's bucket and above every completed bucket,
with completed buckets strictly increasing, a bucket-monotone tick
stream keeps all three properties. -/
theorem procTick_fold_invariant (p : ℤ) :
    ∀ (ticks : List Tick) (b : Bar) (done : List Bar),
      List.Pairwise (· < ·) (done.map Bar.bucketTime) →
      (∀ c ∈ done, c.bucketTime < b.bucketTime) →
      (∀ t ∈ ticks, b.bucketTime ≤ tickBucket p t) →
      List.Pairwise (· ≤ ·) (ticks.map (tickBucket p)) →
      ∃ b', (ticks.foldl (procTick p) ⟨some b, done⟩).current = some b' ∧
        List.Pairwise (· < ·)
          ((ticks.foldl (procTick p) ⟨some b, done⟩).completions.map Bar.bucketTime) ∧
        ∀ c ∈ (ticks.foldl (procTick p) ⟨some b, done⟩).completions,
          c.bucketTime < b'.bucketTime := by
  intro ticks
  induction ticks with
  | nil =>
      intro b done hdone hlt _ _
      exact ⟨b, rfl, hdone, hlt⟩
  | cons t ts ih =>
      intro b done hdone hlt hge hmono
      have hbt : b.bucketTime ≤ tickBucket p t := hge t (List.mem_cons_self t ts)
      have hpc := List.pairwise_cons.mp
        (show List.Pairwise (· ≤ ·) (tickBucket p t :: ts.map (tickBucket p)) from hmono)
      have hmono' : List.Pairwise (· ≤ ·) (ts.map (tickBucket p)) := hpc.2
      have hhead : ∀ t' ∈ ts, tickBucket p t ≤ tickBucket p t' := by
        intro t' ht'
        exact hpc.1 _ (List.mem_map_of_mem _ ht')
      by_cases heq : b.bucketTime = tickBucket p t
      · have heq' : b.bucketTime = getBucketTime (normalizeTimestampBar t.timestamp) p := heq
        have hstep :
            procTick p ⟨some b, done⟩ t = ⟨some (updateBar b t.price t.quantity), done⟩ := by
          simp [procTick, heq']
        rw [List.foldl_cons, hstep]
        exact ih (updateBar b t.price t.quantity) done hdone
          (by simpa [updateBar_bucketTime] using hlt)
          (by intro t' ht'; simpa [updateBar_bucketTime, heq] using hhead t' ht')
          hmono'
      · have hltb : b.bucketTime < tickBucket p t := lt_of_le_of_ne hbt heq
        have hne' : b.bucketTime ≠ getBucketTime (normalizeTimestampBar t.timestamp) p := heq
        have hstep :
            procTick p ⟨some b, done⟩ t =
              ⟨some (initBar (tickBucket p t) t.price t.quantity), done ++ [b]⟩ := by
          simp [procTick, hne']
          rfl
        rw [List.foldl_cons, hstep]
        refine ih (initBar (tickBucket p t) t.price t.quantity) (done ++ [b]) ?_ ?_ ?_ hmono'
        · rw [List.map_append, List.pairwise_append]
          refine ⟨hdone, by simp, ?_⟩
          intro x hx y hy
          simp only [List.map_cons, List.map_nil, List.mem_singleton] at hy
          subst hy
          rcases List.mem_map.mp hx with ⟨c, hc, rfl⟩
          exact hlt c hc
        · intro c hc
          rcases List.mem_append.mp hc with hc | hc
          · exact lt_trans (hlt c hc) hltb
          · simp only [List.mem_singleton] at hc
            subst hc
            exact hltb
        · intro t' ht'
          simpa [initBar] using hhead t' ht'

/-! ## Higher-timeframe aggregation (`_aggregate_higher_timeframes`) -/

theorem aggUpdate_bucketTime (agg base : Bar) :
    (aggUpdate agg base).bucketTime = agg.bucketTime := rfl

/-- When every remaining base bar stays in the open aggregated bar's
bucket, the `aggStep` fold is a plain `aggUpdate` fold and completes
nothing. -/
theorem aggStep_fold_same_bucket (p : ℤ) (rest : List Bar) :
    ∀ (agg : Bar) (comps : List Bar),
      (∀ c ∈ rest, getBucketTime (c.bucketTime : ℚ) p = agg.bucketTime) →
      rest.foldl (aggStep p) ⟨some agg, comps⟩ =
        ⟨some (rest.foldl aggUpdate agg), comps⟩ := by
  induction rest with
  | nil => intro agg comps _; rfl
  | cons c cs ih =>
      intro agg comps hsame
      have hc : getBucketTime ((c.bucketTime : ℤ) : ℚ) p = agg.bucketTime :=
        hsame c (List.mem_cons_self c cs)
      have hstep : aggStep p ⟨some agg, comps⟩ c = ⟨some (aggUpdate agg c), comps⟩ := by
        simp [aggStep, hc]
      rw [List.foldl_cons, hstep, List.foldl_cons]
      exact ih (aggUpdate agg c) comps
        (by intro c' hc'; rw [aggUpdate_bucketTime]; exact hsame c' (List.mem_cons_of_mem c hc'))

/-- Field-by-field description of the pure `aggUpdate` fold. -/
theorem aggUpdate_fold_fields (rest : List Bar) :
    ∀ agg : Bar,
      (rest.foldl aggUpdate agg).open_ = agg.open_ ∧
      (rest.foldl aggUpdate agg).close = (rest.map Bar.close).getLastD agg.close ∧
      (rest.foldl aggUpdate agg).high = (rest.map Bar.high).foldl max agg.high ∧
      (rest.foldl aggUpdate agg).low = (rest.map Bar.low).foldl min agg.low ∧
      (rest.foldl aggUpdate agg).volume = agg.volume + (rest.map Bar.volume).sum ∧
      (rest.foldl aggUpdate agg).tradeCount = agg.tradeCount + (rest.map Bar.tradeCount).sum := by
  induction rest with
  | nil => intro agg; simp
  | cons c cs ih =>
      intro agg
      rcases ih (aggUpdate agg c) with ⟨ho, hc, hh, hl, hv, ht⟩
      refine ⟨?_, ?_, ?_, ?_, ?_, ?_⟩
      · simpa [aggUpdate] using ho
      · rw [List.foldl_cons, hc]
        cases cs with
        | nil => simp [aggUpdate]
        | cons d ds => simp only [List.map_cons, List.getLastD_cons]
      · rw [List.foldl_cons, hh]
        simp [aggUpdate]
      · rw [List.foldl_cons, hl]
        simp [aggUpdate]
      · rw [List.foldl_cons, hv]
        simp [aggUpdate, add_assoc]
      · rw [List.foldl_cons, ht]
        simp [aggUpdate, add_assoc]

/-- C1: an out-of-order tick is NOT dropped: reading ticks with bucket
times 60, 120, 60, 180 (period 60 s), the tick back at bucket 60 closes
the open candle and re-opens a candle at bucket 60, so the completed
buckets are [60, 120, 60], which is not strictly increasing. -/
theorem c1_out_of_order_counterexample :
    (processTicks 60 [⟨101, 1, 60⟩, ⟨102, 1, 120⟩, ⟨103, 1, 60⟩,
        ⟨104, 1, 180⟩]).completions.map Bar.bucketTime = [60, 120, 60] ∧
      ¬ List.Pairwise (· < ·)
        ((processTicks 60 [⟨101, 1, 60⟩, ⟨102, 1, 120⟩, ⟨103, 1, 60⟩,
          ⟨104, 1, 180⟩]).completions.map Bar.bucketTime) := by
  decide

/-- C1 (amended): ticks whose bucket differs from the open candle's are
never dropped; provided the tick stream's bucket times are nondecreasing,
the sequence of bar-completion events is strictly increasing by bucket
time for the (symbol, timeframe) stream. -/
theorem c1_completions_strictly_increasing (p : ℤ) (ticks : List Tick)
    (hmono : List.Pairwise (· ≤ ·) (ticks.map (tickBucket p))) :
    List.Pairwise (· < ·) ((processTicks p ticks).completions.map Bar.bucketTime) := by
  cases ticks with
  | nil => simp [processTicks]
  | cons t ts =>
      have hstep : procTick p ⟨none, []⟩ t =
          ⟨some (initBar (tickBucket p t) t.price t.quantity), []⟩ := by
        simp [procTick, tickBucket]
      have hpc := List.pairwise_cons.mp
        (show List.Pairwise (· ≤ ·) (tickBucket p t :: ts.map (tickBucket p)) from hmono)
      have hmono' : List.Pairwise (· ≤ ·) (ts.map (tickBucket p)) := hpc.2
      have hhead : ∀ t' ∈ ts, tickBucket p t ≤ tickBucket p t' := by
        intro t' ht'
        exact hpc.1 _ (List.mem_map_of_mem _ ht')
      have := procTick_fold_invariant p ts (initBar (tickBucket p t) t.price t.quantity) []
        (by simp) (by simp) (by intro t' ht'; simpa [initBar] using hhead t' ht') hmono'
      rcases this with ⟨b', _, hpair, _⟩
      simpa [processTicks, List.foldl_cons, hstep] using hpair

/-- Witness for the amended C1 theorem at a concrete monotone stream. -/
theorem c1_completions_strictly_increasing_witness :
    List.Pairwise (· < ·)
      ((processTicks 60 [⟨101, 1, 60⟩, ⟨102, 1, 120⟩,
        ⟨103, 1, 180⟩]).completions.map Bar.bucketTime) :=
  c1_completions_strictly_increasing 60 _ (by decide)

/-- C2: rolling consecutive base candles C1..Ck that share one higher
timeframe bucket into a timeframe of `p` seconds yields a candle T with
T.open = C1.open, T.close = Ck.close, T.high the maximum of the Ci.high,
T.low the minimum of the Ci.low, T.volume the sum of the Ci.volume and
T.trade_count the sum of the Ci.trade_count, with no completion emitted
inside the group. -/
theorem c2_higher_timeframe_rollup (p : ℤ) (b : Bar) (rest : List Bar)
    (hsame : ∀ c ∈ rest,
      getBucketTime ((c.bucketTime : ℤ) : ℚ) p = getBucketTime ((b.bucketTime : ℤ) : ℚ) p) :
    ∃ T : Bar, ((b :: rest).foldl (aggStep p) ⟨none, []⟩).current = some T ∧
      ((b :: rest).foldl (aggStep p) ⟨none, []⟩).completions = [] ∧
      T.open_ = b.open_ ∧
      T.close = (rest.map Bar.close).getLastD b.close ∧
      T.high = (rest.map Bar.high).foldl max b.high ∧
      T.low = (rest.map Bar.low).foldl min b.low ∧
      T.volume = b.volume + (rest.map Bar.volume).sum ∧
      T.tradeCount = b.tradeCount + (rest.map Bar.tradeCount).sum := by
  have hstep : aggStep p ⟨none, []⟩ b =
      ⟨some (aggSeed (getBucketTime ((b.bucketTime : ℤ) : ℚ) p) b), []⟩ := rfl
  have hseedBucket :
      (aggSeed (getBucketTime ((b.bucketTime : ℤ) : ℚ) p) b).bucketTime =
        getBucketTime ((b.bucketTime : ℤ) : ℚ) p := rfl
  have hfold := aggStep_fold_same_bucket p rest
    (aggSeed (getBucketTime ((b.bucketTime : ℤ) : ℚ) p) b) []
    (by intro c hcmem; rw [hseedBucket]; exact hsame c hcmem)
  rcases aggUpdate_fold_fields rest (aggSeed (getBucketTime ((b.bucketTime : ℤ) : ℚ) p) b)
    with ⟨ho, hcl, hh, hl, hv, ht⟩
  refine ⟨rest.foldl aggUpdate (aggSeed (getBucketTime ((b.bucketTime : ℤ) : ℚ) p) b),
    ?_, ?_, ?_, ?_, ?_, ?_, ?_, ?_⟩
  · rw [List.foldl_cons, hstep, hfold]
  · rw [List.foldl_cons, hstep, hfold]
  · simpa [aggSeed] using ho
  · simpa [aggSeed] using hcl
  · simpa [aggSeed] using hh
  · simpa [aggSeed] using hl
  · simpa [aggSeed] using hv
  · simpa [aggSeed] using ht

/-- Witness for C2 at two concrete 1m bars rolled into a 5m bucket. -/
theorem c2_higher_timeframe_rollup_witness :
    ∃ T : Bar, (([⟨0, 10, 13, 9, 12, 5, 2⟩, ⟨60, 12, 15, 11, 14, 7, 3⟩] :
        List Bar).foldl (aggStep 300) ⟨none, []⟩).current = some T ∧
      (([⟨0, 10, 13, 9, 12, 5, 2⟩, ⟨60, 12, 15, 11, 14, 7, 3⟩] :
        List Bar).foldl (aggStep 300) ⟨none, []⟩).completions = [] ∧
      T.open_ = (10 : ℚ) ∧
      T.close = ([(⟨60, 12, 15, 11, 14, 7, 3⟩ : Bar)].map Bar.close).getLastD 12 ∧
      T.high = ([(⟨60, 12, 15, 11, 14, 7, 3⟩ : Bar)].map Bar.high).foldl max 13 ∧
      T.low = ([(⟨60, 12, 15, 11, 14, 7, 3⟩ : Bar)].map Bar.low).foldl min 9 ∧
      T.volume = (5 : ℚ) + ([(⟨60, 12, 15, 11, 14, 7, 3⟩ : Bar)].map Bar.volume).sum ∧
      T.tradeCount = 2 + ([(⟨60, 12, 15, 11, 14, 7, 3⟩ : Bar)].map Bar.tradeCount).sum :=
  c2_higher_timeframe_rollup 300 ⟨0, 10, 13, 9, 12, 5, 2⟩ [⟨60, 12, 15, 11, 14, 7, 3⟩]
    (by decide)


/-- C9: the bar builder and the freshness check normalise timestamps
identically: a value above 1e12 is treated as milliseconds and divided
by 1000 exactly; a value at or below 1e12 (even if it is in fact
milliseconds) is kept as seconds. -/
theorem c9_timestamp_normalization :
    (∀ ts : ℚ, normalizeTimestampBar ts = normalizeTimestampFreshness ts) ∧
    (∀ ts : ℚ, ts > 10 ^ 12 → normalizeTimestampBar ts = ts / 1000) ∧
    (∀ ts : ℚ, ts ≤ 10 ^ 12 → normalizeTimestampBar ts = ts) := by
  refine ⟨fun ts => rfl, fun ts h => ?_, fun ts h => ?_⟩
  · simp [normalizeTimestampBar, h]
  · simp [normalizeTimestampBar, not_lt.mpr h]

/-- Witness for C9 at a millisecond-scale and a boundary timestamp. -/
theorem c9_timestamp_normalization_witness :
    normalizeTimestampBar (2 * 10 ^ 12) = 2 * 10 ^ 12 / 1000 ∧
      normalizeTimestampBar (10 ^ 12) = 10 ^ 12 :=
  ⟨c9_timestamp_normalization.2.1 (2 * 10 ^ 12) (by norm_num),
    c9_timestamp_normalization.2.2 (10 ^ 12) (by norm_num)⟩

theorem qualityScore_foldl_bounds :
    ∀ (seq : List Bool) (s : ℚ), 0 ≤ s → s ≤ 1 →
      0 ≤ seq.foldl updateQualityScore s ∧ seq.foldl updateQualityScore s ≤ 1 := by
  intro seq
  induction seq with
  | nil => intro s h0 h1; exact ⟨h0, h1⟩
  | cons b bs ih =>
      intro s h0 h1
      rw [List.foldl_cons]
      refine ih (updateQualityScore s b) ?_ ?_
      · cases b <;> simp [updateQualityScore] <;> linarith
      · cases b <;> simp [updateQualityScore] <;> linarith

theorem qualityScores_foldl_filter :
    ∀ (events : List (String × Bool)) (scores : String → ℚ) (sym : String),
      (events.foldl updateScores scores) sym =
        ((events.filter (fun e => e.1 = sym)).map Prod.snd).foldl
          updateQualityScore (scores sym) := by
  intro events
  induction events with
  | nil => intro scores sym; rfl
  | cons e es ih =>
      intro scores sym
      rw [List.foldl_cons]
      by_cases h : e.1 = sym
      · subst h
        rw [ih]
        have hup : updateScores scores e e.1 = updateQualityScore (scores e.1) e.2 := by
          simp [updateScores]
        rw [hup]
        simp [List.filter_cons]
      · rw [ih]
        have hup : updateScores scores e sym = scores sym := by
          rw [updateScores, if_neg (fun hsym => h hsym.symm)]
        rw [hup]
        simp [List.filter_cons, h]

/-- C6: the per-symbol quality score starts at 1.0; a pass maps s to
s + 0.1(1 − s) and a fail to s + 0.1(0 − s); after any pass/fail
sequence the score stays in [0, 1]; and in a mixed multi-symbol event
stream each symbol's score is exactly the replay of its own filtered
pass/fail sequence, so identical sequences give identical scores. -/
theorem c6_quality_score_invariants :
    qualityScore [] = 1 ∧
    (∀ s : ℚ, updateQualityScore s true = s + (1 / 10) * (1 - s)) ∧
    (∀ s : ℚ, updateQualityScore s false = s + (1 / 10) * (0 - s)) ∧
    (∀ seq : List Bool, 0 ≤ qualityScore seq ∧ qualityScore seq ≤ 1) ∧
    (∀ (events : List (String × Bool)) (sym : String),
      qualityScores events sym =
        qualityScore ((events.filter (fun e => e.1 = sym)).map Prod.snd)) := by
  refine ⟨rfl, fun s => rfl, fun s => rfl, ?_, ?_⟩
  · intro seq
    exact qualityScore_foldl_bounds seq 1 (by norm_num) (by norm_num)
  · intro events sym
    exact qualityScores_foldl_filter events (fun _ => 1) sym

/-- C4: on the concrete candle (open 2, high 1, low 1, close 2) OHLC
validation fails, and `_complete_bar` counts it as invalid yet persists,
publishes and caches it exactly as it does every candle — but records no
quality failure, because the quality-checker branch is a bare `pass`. -/
theorem c4_invalid_bar_no_quality_failure :
    validateOhlc ⟨0, 2, 1, 1, 2, 3, 1⟩ = false ∧
    completeBarEffects ⟨0, 2, 1, 1, 2, 3, 1⟩ =
      ⟨true, false, true, true, true⟩ ∧
    (∀ b : Bar,
      (completeBarEffects b).persisted = true ∧
      (completeBarEffects b).published = true ∧
      (completeBarEffects b).appendedToCache = true ∧
      (completeBarEffects b).qualityFailureRecorded = false) :=
  ⟨by decide, by decide, fun b => ⟨rfl, rfl, rfl, rfl⟩⟩

/-- C7: the bar builder publishes completed bars to the channel named
`completed_bars`, which differs from the `bars:completed` channel that
the processors' own main loop subscribes to for completed bars. -/
theorem c7_completed_bar_channel_mismatch :
    publishCompletedBarChannel = "completed_bars" ∧
    processorsCompletedBarsChannel = "bars:completed" ∧
    publishCompletedBarChannel ≠ processorsCompletedBarsChannel :=
  ⟨rfl, rfl, by decide⟩

/-- C10: whenever `is_allowed` denies a request, the bucket stored in the
cache after the call is exactly the bucket that was stored before it;
the refilled token count and the current time are written only on allow
(and on first-request initialisation). -/
theorem c10_deny_writes_nothing (rate periodSeconds : ℤ) (st : Option BucketState)
    (now : ℚ) (cost : ℤ)
    (h : (isAllowed rate periodSeconds st now cost).allowed = false) :
    (isAllowed rate periodSeconds st now cost).bucket = st := by
  rcases st with _ | b
  · simp [isAllowed] at h
  · by_cases hc : min (rate : ℚ)
        (b.tokens + (now - b.lastRefill) * ((rate : ℚ) / (periodSeconds : ℚ))) ≥ (cost : ℚ)
    · simp [isAllowed, hc] at h
    · simp [isAllowed, hc]

/-- Witness for C10 at a concrete denied request (rate 1 per 1 s, empty
bucket, same-instant retry). -/
theorem c10_deny_writes_nothing_witness :
    (isAllowed 1 1 (some ⟨0, 5⟩) 5 1).allowed = false ∧
    (isAllowed 1 1 (some ⟨0, 5⟩) 5 1).bucket = some ⟨0, 5⟩ := by
  have hden : (isAllowed 1 1 (some ⟨0, 5⟩) 5 1).allowed = false := by
    norm_num [isAllowed]
  exact ⟨hden, c10_deny_writes_nothing 1 1 (some ⟨0, 5⟩) 5 1 hden⟩

/-- C5 counterexample: with rate 1 per 1 s, the first call initialises
the bucket to zero tokens; an immediate second call of cost 1 is denied
with `retry_after = 2`, while the claimed ceiling
`⌈(cost − tokens) / refill_rate⌉ = ⌈1 / 1⌉ = 1`. -/
theorem c5_retry_after_counterexample :
    (isAllowed 1 1 none 5 1).bucket = some ⟨0, 5⟩ ∧
    (isAllowed 1 1 (some ⟨0, 5⟩) 5 1).allowed = false ∧
    (isAllowed 1 1 (some ⟨0, 5⟩) 5 1).retryAfter = some 2 ∧
    ⌈((1 : ℚ) - 0) / ((1 : ℚ) / 1)⌉ = 1 := by
  refine ⟨by norm_num [isAllowed], by norm_num [isAllowed],
    by norm_num [isAllowed, pyInt], by norm_num⟩

/-- C5 (amended): on denial `retry_after` is
`⌊(cost − tokens) / refill_rate⌋ + 1`, which agrees with the ceiling
when the quotient is not an integer and exceeds it by one when it is. -/
theorem c5_retry_after_floor (rate periodSeconds : ℤ) (b : BucketState) (now : ℚ)
    (cost : ℤ) (q : ℚ)
    (hrate : 0 < rate) (hperiod : 0 < periodSeconds)
    (hq : q = ((cost : ℚ) -
        min (rate : ℚ) (b.tokens + (now - b.lastRefill) * ((rate : ℚ) / (periodSeconds : ℚ)))) /
      ((rate : ℚ) / (periodSeconds : ℚ)))
    (hdeny : min (rate : ℚ)
        (b.tokens + (now - b.lastRefill) * ((rate : ℚ) / (periodSeconds : ℚ))) < (cost : ℚ)) :
    (isAllowed rate periodSeconds (some b) now cost).allowed = false ∧
    (isAllowed rate periodSeconds (some b) now cost).retryAfter = some (⌊q⌋ + 1) ∧
    ((¬ ∃ k : ℤ, q = (k : ℚ)) → (⌊q⌋ + 1 : ℤ) = ⌈q⌉) ∧
    ((∃ k : ℤ, q = (k : ℚ)) → (⌊q⌋ + 1 : ℤ) = ⌈q⌉ + 1) := by
  have hrefill : (0 : ℚ) < (rate : ℚ) / (periodSeconds : ℚ) :=
    div_pos (by exact_mod_cast hrate) (by exact_mod_cast hperiod)
  have hq0 : 0 < q := by
    rw [hq]
    exact div_pos (by linarith) hrefill
  refine ⟨?_, ?_, ?_, ?_⟩
  · simp [isAllowed, not_le.mpr hdeny]
  · have hpy : pyInt q = ⌊q⌋ := by rw [pyInt, if_pos (le_of_lt hq0)]
    simp [isAllowed, not_le.mpr hdeny, ← hq, hpy]
  · intro h
    have h1 : (⌊q⌋ : ℚ) < q :=
      lt_of_le_of_ne (Int.floor_le q) (fun he => h ⟨⌊q⌋, he.symm⟩)
    have h2 : ⌈q⌉ ≤ ⌊q⌋ + 1 := by
      refine Int.ceil_le.mpr ?_
      push_cast
      exact le_of_lt (Int.lt_floor_add_one q)
    have h3 : ⌊q⌋ < ⌈q⌉ := by
      exact_mod_cast lt_of_lt_of_le h1 (Int.le_ceil q)
    omega
  · rintro ⟨k, rfl⟩
    simp

/-- Witness for the amended C5 theorem at the concrete denied request. -/
theorem c5_retry_after_floor_witness :
    (isAllowed 1 1 (some ⟨0, 5⟩) 5 1).allowed = false ∧
    (isAllowed 1 1 (some ⟨0, 5⟩) 5 1).retryAfter = some (⌊(1 : ℚ)⌋ + 1) ∧
    ((¬ ∃ k : ℤ, (1 : ℚ) = (k : ℚ)) → (⌊(1 : ℚ)⌋ + 1 : ℤ) = ⌈(1 : ℚ)⌉) ∧
    ((∃ k : ℤ, (1 : ℚ) = (k : ℚ)) → (⌊(1 : ℚ)⌋ + 1 : ℤ) = ⌈(1 : ℚ)⌉ + 1) :=
  c5_retry_after_floor 1 1 ⟨0, 5⟩ 5 1 1 (by norm_num) (by norm_num)
    (by norm_num) (by norm_num)

theorem breaker_fail1_from_fresh :
    (breakerCall c3Config 0 CallOutcome.failed (initBreaker c3Config)).state =
      ⟨CircuitState.closed, 1, 0, none, 1 / 2⟩ := by
  simp [breakerCall, breakerPreCheck, initBreaker, c3Config, onFailure, CallResult.state]

theorem breaker_fail2 :
    (breakerCall c3Config 0 CallOutcome.failed
      ⟨CircuitState.closed, 1, 0, none, 1 / 2⟩).state =
      ⟨CircuitState.closed, 2, 0, none, 1 / 2⟩ := by
  simp [breakerCall, breakerPreCheck, onFailure, c3Config, CallResult.state]

theorem breaker_fail3_opens_with_doubled_timeout :
    (breakerCall c3Config 0 CallOutcome.failed
      ⟨CircuitState.closed, 2, 0, none, 1 / 2⟩).state =
      ⟨CircuitState.opened, 3, 0, some 0, 1⟩ := by
  simp [breakerCall, breakerPreCheck, onFailure, transitionToOpen, c3Config,
    CallResult.state]

/-- C3 counterexample: with `failure_threshold=3, timeout=0.5,
success_threshold=2` and the default `exponential_backoff=True`, three
failing calls at time 0 leave the breaker OPEN with the timeout already
doubled to 1.0 s, so the call made exactly 0.5 s after opening still
raises instead of running in HALF_OPEN. -/
theorem c3_backoff_counterexample :
    (breakerCall c3Config 0 CallOutcome.failed
      ((breakerCall c3Config 0 CallOutcome.failed
        ((breakerCall c3Config 0 CallOutcome.failed
          (initBreaker c3Config)).state)).state)).state =
      ⟨CircuitState.opened, 3, 0, some 0, 1⟩ ∧
    breakerCall c3Config (1 / 2) CallOutcome.succeeded
        ⟨CircuitState.opened, 3, 0, some 0, 1⟩ =
      CallResult.raised ⟨CircuitState.opened, 3, 0, some 0, 1⟩ := by
  constructor
  · rw [breaker_fail1_from_fresh, breaker_fail2, breaker_fail3_opens_with_doubled_timeout]
  · simp [breakerCall, breakerPreCheck, shouldAttemptReset]
    norm_num

/-- C3 (amended): whenever the breaker is OPEN and at least the current
(possibly backed-off) timeout has elapsed since it opened, the next call
is let through after an OPEN to HALF_OPEN transition; concretely with
the claim's config and default exponential backoff, three failures at
time 0 open the breaker with an effective timeout of 1.0 s, a call at
0.5 s still raises, and the call at 1.0 s transitions to HALF_OPEN. -/
theorem c3_breaker_timeout_halfopen (cfg : CircuitBreakerConfig) (st : BreakerState)
    (now openedAt : ℚ) (outcome : CallOutcome)
    (hopen : st.state = CircuitState.opened)
    (hat : st.openedAt = some openedAt)
    (helapsed : now - openedAt ≥ st.currentTimeout) :
    (breakerPreCheck now st = some (transitionToHalfOpen st) ∧
      (transitionToHalfOpen st).state = CircuitState.halfOpen ∧
      ∃ st', breakerCall cfg now outcome st = CallResult.executed st') ∧
    ((breakerCall c3Config 0 CallOutcome.failed
      ((breakerCall c3Config 0 CallOutcome.failed
        ((breakerCall c3Config 0 CallOutcome.failed
          (initBreaker c3Config)).state)).state)).state =
        ⟨CircuitState.opened, 3, 0, some 0, 1⟩ ∧
      breakerCall c3Config (1 / 2) CallOutcome.succeeded
          ⟨CircuitState.opened, 3, 0, some 0, 1⟩ =
        CallResult.raised ⟨CircuitState.opened, 3, 0, some 0, 1⟩ ∧
      breakerPreCheck 1 ⟨CircuitState.opened, 3, 0, some 0, 1⟩ =
        some (transitionToHalfOpen ⟨CircuitState.opened, 3, 0, some 0, 1⟩)) := by
  have hreset : shouldAttemptReset now st = true := by
    rw [shouldAttemptReset, hat]
    simp [helapsed]
  have hpre : breakerPreCheck now st = some (transitionToHalfOpen st) := by
    rw [breakerPreCheck, if_pos hopen, if_pos hreset]
  refine ⟨⟨hpre, rfl, ?_⟩, ?_, ?_, ?_⟩
  · cases outcome
    · exact ⟨onSuccess cfg (transitionToHalfOpen st), by rw [breakerCall, hpre]⟩
    · exact ⟨onFailure cfg now (transitionToHalfOpen st), by rw [breakerCall, hpre]⟩
  · rw [breaker_fail1_from_fresh, breaker_fail2, breaker_fail3_opens_with_doubled_timeout]
  · simp [breakerCall, breakerPreCheck, shouldAttemptReset]
    norm_num
  · simp [breakerPreCheck, shouldAttemptReset, transitionToHalfOpen]

/-- Witness for the amended C3 theorem: the breaker left OPEN at time 0
with effective timeout 1.0 s lets the call at time 1 run in HALF_OPEN. -/
theorem c3_breaker_timeout_halfopen_witness :
    (breakerPreCheck 1 ⟨CircuitState.opened, 3, 0, some 0, 1⟩ =
        some (transitionToHalfOpen ⟨CircuitState.opened, 3, 0, some 0, 1⟩) ∧
      (transitionToHalfOpen
        (⟨CircuitState.opened, 3, 0, some 0, 1⟩ : BreakerState)).state =
        CircuitState.halfOpen ∧
      ∃ st', breakerCall c3Config 1 CallOutcome.succeeded
          ⟨CircuitState.opened, 3, 0, some 0, 1⟩ = CallResult.executed st') ∧
    ((breakerCall c3Config 0 CallOutcome.failed
      ((breakerCall c3Config 0 CallOutcome.failed
        ((breakerCall c3Config 0 CallOutcome.failed
          (initBreaker c3Config)).state)).state)).state =
        ⟨CircuitState.opened, 3, 0, some 0, 1⟩ ∧
      breakerCall c3Config (1 / 2) CallOutcome.succeeded
          ⟨CircuitState.opened, 3, 0, some 0, 1⟩ =
        CallResult.raised ⟨CircuitState.opened, 3, 0, some 0, 1⟩ ∧
      breakerPreCheck 1 ⟨CircuitState.opened, 3, 0, some 0, 1⟩ =
        some (transitionToHalfOpen ⟨CircuitState.opened, 3, 0, some 0, 1⟩)) :=
  c3_breaker_timeout_halfopen c3Config ⟨CircuitState.opened, 3, 0, some 0, 1⟩ 1 0
    CallOutcome.succeeded rfl rfl (by norm_num)

theorem evalAlert_first_fire :
    evalAlert c8Alert 0 101 =
      (⟨true, AlertCondition.priceAbove, 100, 60, false, some 0, 1⟩, true) := by
  norm_num [evalAlert, shouldTrigger, c8Alert, updateAlertState]

theorem evalAlert_cooldown_skip_5 :
    evalAlert ⟨true, AlertCondition.priceAbove, 100, 60, false, some 0, 1⟩ 5 102 =
      (⟨true, AlertCondition.priceAbove, 100, 60, false, some 0, 1⟩, false) := by
  norm_num [evalAlert, shouldTrigger]

theorem evalAlert_cooldown_skip_10 :
    evalAlert ⟨true, AlertCondition.priceAbove, 100, 60, false, some 0, 1⟩ 10 103 =
      (⟨true, AlertCondition.priceAbove, 100, 60, false, some 0, 1⟩, false) := by
  norm_num [evalAlert, shouldTrigger]

theorem evalAlert_refire_60 :
    evalAlert ⟨true, AlertCondition.priceAbove, 100, 60, false, some 0, 1⟩ 60 103 =
      (⟨true, AlertCondition.priceAbove, 100, 60, false, some 60, 2⟩, true) := by
  norm_num [evalAlert, shouldTrigger, updateAlertState]

/-- C8: a rule never fires while `now − last_fired_at < cooldown_s`; and
the PRICE_ABOVE 100 rule with 60 s cooldown, fed prices 101, 102, 103
within 10 s, fires exactly once, on the first evaluation, while a fourth
evaluation 60 s after the first fire fires again. -/
theorem c8_alert_cooldown (a : Alert) (now price lastAt : ℚ)
    (hlast : a.lastTriggeredAt = some lastAt)
    (hcool : now - lastAt < a.cooldownSeconds) :
    shouldTrigger a now price = false ∧
    (evalAlertSeq c8Alert [(0, 101), (5, 102), (10, 103)]).2 = [true, false, false] ∧
    (evalAlertSeq c8Alert [(0, 101), (5, 102), (10, 103), (60, 103)]).2 =
      [true, false, false, true] := by
  refine ⟨?_, ?_, ?_⟩
  · have hlt : now < lastAt + a.cooldownSeconds := by linarith
    cases hb : a.isActive <;> simp [shouldTrigger, hlast, hb, hlt]
  · simp [evalAlertSeq, evalAlert_first_fire, evalAlert_cooldown_skip_5,
      evalAlert_cooldown_skip_10]
  · simp [evalAlertSeq, evalAlert_first_fire, evalAlert_cooldown_skip_5,
      evalAlert_cooldown_skip_10, evalAlert_refire_60]

/-- Witness for C8: the alert that fired at time 0 is still in cooldown
at time 5 and does not fire on price 102. -/
theorem c8_alert_cooldown_witness :
    shouldTrigger ⟨true, AlertCondition.priceAbove, 100, 60, false, some 0, 1⟩ 5 102 =
      false ∧
    (evalAlertSeq c8Alert [(0, 101), (5, 102), (10, 103)]).2 = [true, false, false] ∧
    (evalAlertSeq c8Alert [(0, 101), (5, 102), (10, 103), (60, 103)]).2 =
      [true, false, false, true] :=
  c8_alert_cooldown ⟨true, AlertCondition.priceAbove, 100, 60, false, some 0, 1⟩
    5 102 0 rfl (by norm_num)
